import Mathlib

/-!
Verification of the AI control server (src/ai_server/godot_ai_server.py).

Shallow embedding: the message model (Command/Response and their wire
dictionaries), the retry engine, the performance analyzer, and the command
dispatcher's execution loop are translated into executable Lean definitions.

Modelling conventions:
* Python dictionaries are association lists `List (String × _)` with
  insertion-ordered keys; `aset`/`aget?`/`aupd`/`adel` implement Python's
  item assignment, `get`, `update`, and `del` (assignment to an existing key
  keeps its position, a new key is appended — CPython's ordered-dict rule).
* Python `Any` values on the wire are the inductive `Value` (strings,
  booleans, numbers as ℚ, nested dicts, and opaque blobs standing in for any
  other Python object).
* CPython floats in this program (retry delays, thresholds, telemetry) stay
  in ranges where IEEE 754 arithmetic is exact, so they are modelled as ℚ.
* Wall-clock timestamps (datetime.now().isoformat()) are external inputs and
  are modelled by a logical clock: a counter in the dispatcher state that is
  incremented at each `now()` call.
* The network is an oracle `ℕ → Option Response` giving the result of the
  n-th `send_command` call of one `execute_command` invocation
  (`none` = communication failure / timeout, exactly the `None` returns of
  `GodotAIClient.send_command`).
* The dispatcher's `while True` loop is driven by fuel; a result of `none`
  means the loop did not terminate within the given fuel.  The dispatcher
  state additionally records the observable effect trace: the number of
  sends performed and the list of `asyncio.sleep` delays.
-/

namespace GodotAI

/-- Wire values: the `Any`-typed payloads stored in Python dicts. `vBlob`
stands for any other Python object (opaque, never inspected by the code
under verification). -/
inductive Value where
  | vStr : String → Value
  | vBool : Bool → Value
  | vNum : ℚ → Value
  | vDict : List (String × Value) → Value
  | vBlob : Nat → Value

/-- Python ordered-dict item assignment `d[k] = v`: replaces in place when
the key is present, appends otherwise. -/
def aset {α : Type} (d : List (String × α)) (k : String) (v : α) : List (String × α) :=
  if d.any (fun p => p.1 == k) then
    d.map (fun p => if p.1 == k then (p.1, v) else p)
  else
    d ++ [(k, v)]

/-- Python `d.get(k)` (no default): first binding of the key. -/
def aget? {α : Type} (d : List (String × α)) (k : String) : Option α :=
  (d.find? (fun p => p.1 == k)).map (fun p => p.2)

/-- Python `d.update(e)`: item-assign every binding of `e` in order. -/
def aupd {α : Type} (d e : List (String × α)) : List (String × α) :=
  e.foldl (fun acc p => aset acc p.1 p.2) d

/-- Python `del d[k]`. -/
def adel {α : Type} (d : List (String × α)) (k : String) : List (String × α) :=
  d.filter (fun p => p.1 != k)

/-- Typed read of a string wire field with a default, per the dataclass
annotations (`data.get(k, dflt)` whose value is used as a `str`). -/
def getStr (d : List (String × Value)) (k : String) (dflt : String) : String :=
  match aget? d k with
  | some (.vStr s) => s
  | some _ => dflt
  | none => dflt

/-- Typed read of a boolean wire field with a default. -/
def getBool (d : List (String × Value)) (k : String) (dflt : Bool) : Bool :=
  match aget? d k with
  | some (.vBool b) => b
  | some _ => dflt
  | none => dflt

/-- Typed read of a numeric wire field with a default. -/
def getNum (d : List (String × Value)) (k : String) (dflt : ℚ) : ℚ :=
  match aget? d k with
  | some (.vNum q) => q
  | some _ => dflt
  | none => dflt

/-- Typed read of a dict-valued wire field with a default. -/
def getDict (d : List (String × Value)) (k : String) (dflt : List (String × Value)) :
    List (String × Value) :=
  match aget? d k with
  | some (.vDict e) => e
  | some _ => dflt
  | none => dflt

/-- `@dataclass Command` (godot_ai_server.py lines 55-61). -/
structure Command where
  action : String
  parameters : List (String × Value)
  auto_run : Bool
  request_id : String

/-- `Command.to_dict` (lines 63-72): `{action, auto_run}` updated with the
parameters, then `request_id` item-assigned when non-empty (Python
truthiness of the string). -/
def Command.to_dict (c : Command) : List (String × Value) :=
  let result : List (String × Value) :=
    [("action", Value.vStr c.action), ("auto_run", Value.vBool c.auto_run)]
  let result := aupd result c.parameters
  if c.request_id = "" then result else aset result "request_id" (Value.vStr c.request_id)

/-- `Command.from_dict` (lines 74-82): defaults for missing keys, every
non-reserved key becomes a parameter (dict comprehension preserves order). -/
def Command.from_dict (data : List (String × Value)) : Command :=
  { action := getStr data "action" ""
    parameters := data.filter (fun p => !(["action", "auto_run", "request_id"].contains p.1))
    auto_run := getBool data "auto_run" false
    request_id := getStr data "request_id" "" }

/-- `@dataclass Response` (lines 85-94). -/
structure Response where
  status : String
  action : String
  error : String
  error_type : String
  error_details : List (String × Value)
  data : List (String × Value)
  timestamp : ℚ

/-- `Response.is_success` (lines 96-98). -/
def Response.is_success (r : Response) : Bool :=
  r.status == "success"

/-- `Response.is_error` (lines 100-102). -/
def Response.is_error (r : Response) : Bool :=
  r.status == "error"

/-- `Response.to_dict` (lines 104-116): optional fields included only when
truthy (non-empty string / non-empty dict), then `data` merged on top.
`timestamp` is not serialized, exactly as in the source. -/
def Response.to_dict (r : Response) : List (String × Value) :=
  let result : List (String × Value) := [("status", Value.vStr r.status)]
  let result := if r.action = "" then result else aset result "action" (Value.vStr r.action)
  let result := if r.error = "" then result else aset result "error" (Value.vStr r.error)
  let result :=
    if r.error_type = "" then result else aset result "error_type" (Value.vStr r.error_type)
  let result :=
    if r.error_details.isEmpty then result
    else aset result "error_details" (Value.vDict r.error_details)
  aupd result r.data

/-- `Response.from_dict` (lines 118-129): note the wire key `type` maps to
`error_type`, the reserved set excludes `timestamp` (so it also lands in
`data`), and a missing `status` defaults to `"unknown"`. -/
def Response.from_dict (data : List (String × Value)) : Response :=
  { status := getStr data "status" "unknown"
    action := getStr data "action" ""
    error := getStr data "error" ""
    error_type := getStr data "type" ""
    error_details := getDict data "error_details" []
    data := data.filter (fun p => !(["status", "action", "error", "type", "error_details"].contains p.1))
    timestamp := getNum data "timestamp" 0 }

/-- `RetryEngine.MAX_RETRIES` (line 135). -/
def MAX_RETRIES : ℕ := 5

/-- `RetryEngine.RETRY_DELAY_BASE` (line 136), seconds. -/
def RETRY_DELAY_BASE : ℚ := 1

/-- `RetryEngine.RETRY_DELAY_MAX` (line 137), seconds. -/
def RETRY_DELAY_MAX : ℚ := 10

/-- One entry of `RetryEngine.retry_history` (lines 161-167); the wall-clock
timestamp is replaced by the dispatcher's logical clock. -/
structure RetryRecord where
  request_id : String
  command : List (String × Value)
  response : List (String × Value)
  attempt : ℕ
  timestamp : ℕ

/-- The mutable state of `RetryEngine` (lines 139-141). -/
structure RetryEngineState where
  retry_count : List (String × ℕ)
  retry_history : List RetryRecord

/-- `self.retry_count.get(request_id, 0)`. -/
def getCount (rc : List (String × ℕ)) (request_id : String) : ℕ :=
  (aget? rc request_id).getD 0

/-- `RetryEngine.should_retry` (lines 143-146). -/
def RetryEngineState.should_retry (st : RetryEngineState) (request_id : String) : Bool :=
  decide (getCount st.retry_count request_id < MAX_RETRIES)

/-- `RetryEngine.get_retry_delay` (lines 148-152). -/
def RetryEngineState.get_retry_delay (st : RetryEngineState) (request_id : String) : ℚ :=
  min (RETRY_DELAY_BASE * 2 ^ getCount st.retry_count request_id) RETRY_DELAY_MAX

/-- The counter update of `RetryEngine.record_attempt` (lines 156-159):
create the key at 0 when absent, then increment it. -/
def bumpCount (rc : List (String × ℕ)) (request_id : String) : List (String × ℕ) :=
  let rc := if rc.any (fun p => p.1 == request_id) then rc else rc ++ [(request_id, 0)]
  rc.map (fun p => if p.1 == request_id then (p.1, p.2 + 1) else p)

/-- `RetryEngine.record_attempt` (lines 154-169); `now` is the logical clock
standing in for `datetime.now().isoformat()`. -/
def RetryEngineState.record_attempt (st : RetryEngineState) (request_id : String)
    (command : Command) (response : Response) (now : ℕ) : RetryEngineState :=
  let rc := bumpCount st.retry_count request_id
  { retry_count := rc
    retry_history := st.retry_history ++
      [⟨request_id, command.to_dict, response.to_dict, getCount rc request_id, now⟩] }

/-- `RetryEngine.reset` (lines 171-174): `del` removes the key entirely. -/
def RetryEngineState.reset (st : RetryEngineState) (request_id : String) : RetryEngineState :=
  { st with retry_count := adel st.retry_count request_id }

/-- `RetryEngine.can_continue` (lines 176-178). -/
def RetryEngineState.can_continue (st : RetryEngineState) (request_id : String) : Bool :=
  st.should_retry request_id

/-- `PerformanceAnalyzer.THRESHOLDS` (lines 193-201). -/
def THRESHOLDS : List (String × ℚ) :=
  [("fps_min", 30), ("fps_warning", 45),
   ("draw_calls_max", 5000), ("draw_calls_warning", 3000),
   ("node_count_max", 2000), ("node_count_warning", 1500),
   ("memory_max_mb", 512)]

/-- `self.THRESHOLDS[k]` (all keys used by the code are present). -/
def thr (k : String) : ℚ :=
  (aget? THRESHOLDS k).getD 0

/-- A telemetry report: the four keys `analyze` reads, each optional
(`report.get` with a default). -/
structure PerfReport where
  fps : Option ℚ
  draw_calls : Option ℚ
  node_count : Option ℚ
  memory_usage_mb : Option ℚ

/-- One entry of the analyzer's `issues` / `warnings` lists. -/
structure PerfEntry where
  metric : String
  value : ℚ
  threshold : ℚ
  message : String

/-- One entry of the analyzer's `recommendations` list. -/
structure Recommendation where
  priority : String
  area : String
  message : String

/-- The analysis dict built by `PerformanceAnalyzer.analyze`. -/
structure Analysis where
  status : String
  issues : List PerfEntry
  warnings : List PerfEntry
  recommendations : List Recommendation

/-- Fixed-point formatting with one decimal digit, standing in for the
f-string `{x:.1f}` (exact for the telemetry values this program compares). -/
def fmtFixed1 (q : ℚ) : String :=
  let n : ℤ := ⌊q * 10 + 1 / 2⌋
  let s := if n < 0 then "-" else ""
  s ++ toString (n.natAbs / 10) ++ "." ++ toString (n.natAbs % 10)

/-- Decimal rendering of a numeric wire value, standing in for Python `str`
inside f-strings. -/
def fmtNum (q : ℚ) : String :=
  if q.den = 1 then toString q.num else toString q.num ++ "/" ++ toString q.den

/-- `needle` is a leading run of `hay` (character lists). -/
def leadsWith : List Char → List Char → Bool
  | [], _ => true
  | _ :: _, [] => false
  | a :: as, b :: bs => a == b && leadsWith as bs

/-- Python's substring test `needle in hay` for strings. -/
def strContains (hay needle : String) : Bool :=
  (List.range (hay.data.length + 1)).any (fun i => leadsWith needle.data (hay.data.drop i))

/-- `PerformanceAnalyzer._generate_recommendations` (lines 274-305): one
high-priority templated message per issue (if/elif chain keyed on the
metric), one medium-priority monitor message per warning. -/
def generateRecommendations (issues warnings : List PerfEntry) : List Recommendation :=
  let recs := issues.filterMap (fun issue =>
    if issue.metric = "fps" then
      some ⟨"high", "frame_rate",
        "Reduce shader complexity, implement LOD, enable occlusion culling"⟩
    else if issue.metric = "draw_calls" then
      some ⟨"high", "draw_calls",
        "Use MultiMeshInstance, enable GPU instancing, combine static meshes"⟩
    else if issue.metric = "node_count" then
      some ⟨"high", "node_count", "Merge static geometry, implement object pooling"⟩
    else none)
  recs ++ warnings.map (fun w =>
    ⟨"medium", w.metric, "Monitor " ++ w.metric ++ " - current: " ++ fmtNum w.value⟩)

/-- `PerformanceAnalyzer.analyze` (lines 203-272), translated statement by
statement.  `memory_usage_mb` is read but never used, as in the source.  The
draw-call warning branch keeps the source's vacuous guard
`"warning" not in analysis["status"]`, and the draw-call / node-count
critical branches keep the vacuous conditional re-assignment of
`"critical"`. -/
def analyze (report : PerfReport) : Analysis :=
  let status := "ok"
  let issues : List PerfEntry := []
  let warnings : List PerfEntry := []
  let fps := report.fps.getD 60
  let draw_calls := report.draw_calls.getD 0
  let node_count := report.node_count.getD 0
  let _memory_mb := report.memory_usage_mb.getD 0
  let sw1 : String × List PerfEntry × List PerfEntry :=
    if fps < thr "fps_min" then
      ("critical",
       issues ++ [⟨"fps", fps, thr "fps_min", "Critical FPS: " ++ fmtFixed1 fps⟩],
       warnings)
    else if fps < thr "fps_warning" then
      (status, issues,
       warnings ++ [⟨"fps", fps, thr "fps_warning", "Low FPS: " ++ fmtFixed1 fps⟩])
    else (status, issues, warnings)
  let sw2 : String × List PerfEntry × List PerfEntry :=
    if draw_calls > thr "draw_calls_max" then
      (if sw1.1 ≠ "critical" then "critical" else "critical",
       sw1.2.1 ++ [⟨"draw_calls", draw_calls, thr "draw_calls_max",
         "Critical draw calls: " ++ fmtNum draw_calls⟩],
       sw1.2.2)
    else if draw_calls > thr "draw_calls_warning" then
      if !(strContains sw1.1 "warning") then
        (sw1.1, sw1.2.1,
         sw1.2.2 ++ [⟨"draw_calls", draw_calls, thr "draw_calls_warning",
           "High draw calls: " ++ fmtNum draw_calls⟩])
      else sw1
    else sw1
  let sw3 : String × List PerfEntry × List PerfEntry :=
    if node_count > thr "node_count_max" then
      (if sw2.1 ≠ "critical" then "critical" else "critical",
       sw2.2.1 ++ [⟨"node_count", node_count, thr "node_count_max",
         "Critical node count: " ++ fmtNum node_count⟩],
       sw2.2.2)
    else if node_count > thr "node_count_warning" then
      (sw2.1, sw2.2.1,
       sw2.2.2 ++ [⟨"node_count", node_count, thr "node_count_warning",
         "High node count: " ++ fmtNum node_count⟩])
    else sw2
  { status := sw3.1
    issues := sw3.2.1
    warnings := sw3.2.2
    recommendations := generateRecommendations sw3.2.1 sw3.2.2 }

/-- One entry of `AICommandDispatcher.command_history` (lines 499-504); the
wall-clock timestamp is replaced by the dispatcher's logical clock. -/
structure HistoryEntry where
  command : List (String × Value)
  response : List (String × Value)
  attempts : ℕ
  timestamp : ℕ

/-- The mutable state of `AICommandDispatcher` (lines 414-419) together with
the logical clock and the observable effect trace of one run: `sends` counts
the calls to `GodotAIClient.send_command`, `sleeps` lists the delays passed
to `asyncio.sleep` in order. -/
structure DispState where
  retry : RetryEngineState
  pending_commands : List (String × Command)
  command_history : List HistoryEntry
  clock : ℕ
  sends : ℕ
  sleeps : List ℚ

/-- The freshly constructed dispatcher (lines 414-419): empty retry engine,
no pending commands, empty history. -/
def initState : DispState :=
  ⟨⟨[], []⟩, [], [], 0, 0, []⟩

/-- `AICommandDispatcher._log_command` (lines 497-513): append the entry,
then keep only the last 1000 entries when the list has grown past 1000
(`self.command_history[-1000:]`).  The logging calls are pure side channel
and have no counterpart here. -/
def logCommand (st : DispState) (command : Command) (response : Response)
    (attempts : ℕ) : DispState :=
  let entry : HistoryEntry := ⟨command.to_dict, response.to_dict, attempts, st.clock⟩
  let hist := st.command_history ++ [entry]
  let hist := if hist.length > 1000 then hist.drop (hist.length - 1000) else hist
  { st with command_history := hist, clock := st.clock + 1 }

/-- `self.retry_engine.record_attempt(...)` as seen from the dispatcher:
the engine records with the current clock, which then ticks. -/
def recordAttemptD (st : DispState) (request_id : String) (command : Command)
    (response : Response) : DispState :=
  { st with retry := st.retry.record_attempt request_id command response st.clock
            clock := st.clock + 1 }

/-- The synthesized terminal response of the communication-failure branch
(lines 441-445). -/
def commFailureResponse : Response :=
  ⟨"error", "", "Failed to communicate with Godot Editor", "communication", [], [], 0⟩

/-- The `while True` body of `AICommandDispatcher.execute_command`
(lines 428-468), driven by fuel.  `attempts` is the Python local of the same
name as it stands at the top of the iteration (so the result of the n-th
send is `oracle attempts`, and the value logged is `attempts + 1`).
A result of `none` means the loop did not terminate within `fuel`
iterations.  The two statements after the loop (lines 470-471, removing the
id from `pending_commands` and the defensive fall-through response) are
unreachable in the source — the loop contains no `break` — and so have no
counterpart in the model. -/
def executeCommandLoop (oracle : ℕ → Option Response) (command : Command)
    (request_id : String) : ℕ → ℕ → DispState → Option (Response × DispState)
  | 0, _, _ => none
  | fuel + 1, attempts, st =>
    let a := attempts + 1
    let st1 : DispState := { st with sends := st.sends + 1 }
    match oracle attempts with
    | none =>
      if st1.retry.can_continue request_id then
        let delay := st1.retry.get_retry_delay request_id
        executeCommandLoop oracle command request_id fuel a
          { st1 with sleeps := st1.sleeps ++ [delay] }
      else
        some (commFailureResponse, st1)
    | some response =>
      let st2 := recordAttemptD st1 request_id command response
      if response.is_success then
        let st3 := logCommand st2 command response a
        some (response, { st3 with retry := st3.retry.reset request_id })
      else if response.is_error then
        if ["compile", "runtime"].contains response.error_type
            && st2.retry.can_continue request_id then
          let delay := st2.retry.get_retry_delay request_id
          executeCommandLoop oracle command request_id fuel a
            { st2 with sleeps := st2.sleeps ++ [delay] }
        else
          some (response, logCommand st2 command response a)
      else
        executeCommandLoop oracle command request_id fuel a st2

/-- `execute_command` lines 423-424: the command as the dispatcher owns it,
with the request id assigned when the command carries none (Python
`command.request_id or self._generate_request_id()`; `freshId` stands for
the generated id). -/
def ownedCommand (command : Command) (freshId : String) : Command :=
  { command with
      request_id := if command.request_id = "" then freshId else command.request_id }

/-- `AICommandDispatcher.execute_command` (lines 421-471): take ownership of
the command (assigning `freshId` when the command carries no request id —
the model's stand-in for `_generate_request_id()`), register it in
`pending_commands`, and run the retry loop.  The `max_retries` parameter of
the source is accepted and, exactly as in the source body, never read. -/
def executeCommand (oracle : ℕ → Option Response) (freshId : String)
    (_max_retries : Option ℕ) (fuel : ℕ) (command : Command) (st : DispState) :
    Option (Response × DispState) :=
  let command := ownedCommand command freshId
  let st :=
    { st with pending_commands := aset st.pending_commands command.request_id command }
  executeCommandLoop oracle command command.request_id fuel 0 st

/-- `AICommandDispatcher.execute_batch` (lines 473-482), parametric in the
single-command executor (the source calls `self.execute_command`; `execOne`
stands for its response-and-state result): append each response, stop right
after the first one classified as an error. -/
def executeBatch {σ : Type} (execOne : Command → σ → Response × σ) :
    List Command → σ → List Response × σ
  | [], st => ([], st)
  | c :: cs, st =>
    let rs := execOne c st
    if rs.1.is_error then ([rs.1], rs.2)
    else
      let rest := executeBatch execOne cs rs.2
      (rs.1 :: rest.1, rest.2)

/-- Spec-side reference executor: run every command one at a time in order,
threading the state, with no early stop.  Used to state what "executes the
commands in order and never attempts the ones after the first error" means
for `executeBatch`. -/
def runSeq {σ : Type} (execOne : Command → σ → Response × σ) :
    List Command → σ → List Response × σ
  | [], st => ([], st)
  | c :: cs, st =>
    let rs := execOne c st
    let rest := runSeq execOne cs rs.2
    (rs.1 :: rest.1, rest.2)

/-- Test fixture: a command without a request id. -/
def cmdRun : Command :=
  ⟨"run_scene", [("scene_path", Value.vStr "res://scenes/main.tscn")], false, ""⟩

/-- Test fixture: a successful reply. -/
def okResp : Response :=
  ⟨"success", "run_scene", "", "", [], [], 0⟩

/-- Test fixture: a retryable compile-error reply. -/
def compileErr : Response :=
  ⟨"error", "run_scene", "Compilation failed", "compile", [], [], 0⟩

/-- Test fixture: pairwise-distinct compile-error replies, one per send
attempt (the n-th reply carries the attempt number in its message). -/
def compileErrN : ℕ → Response :=
  fun n => ⟨"error", "run_scene", "Compilation failed " ++ toString n, "compile", [], [], 0⟩

/-- Test fixture: a non-retryable error reply. -/
def invalidErr : Response :=
  ⟨"error", "run_scene", "Bad syntax", "invalid_syntax", [], [], 0⟩

/-- Test fixture: a single-command executor over a counter state that
succeeds except on its second invocation, which reports a non-retryable
error. -/
def batchExecFix : Command → ℕ → Response × ℕ :=
  fun _ n => (if n = 1 then invalidErr else okResp, n + 1)

/-- Test fixture: an arbitrary history entry for filling the ring buffer. -/
def entryFix : HistoryEntry :=
  ⟨[("action", Value.vStr "run_scene")], [("status", Value.vStr "success")], 1, 0⟩

/-- Test fixture: a dispatcher state whose command history is full. -/
def stFull : DispState :=
  ⟨⟨[], []⟩, [], List.replicate 1000 entryFix, 7, 0, []⟩

/- ### Shared helper lemmas -/

theorem aset_absent {α : Type} (d : List (String × α)) (k : String) (v : α)
    (h : ∀ p ∈ d, p.1 ≠ k) : aset d k v = d ++ [(k, v)] := by
  unfold aset
  have hany : d.any (fun p => p.1 == k) = false := by
    simp only [List.any_eq_false]
    intro p hp
    simp [h p hp]
  simp [hany]

theorem aupd_fresh {α : Type} (e d : List (String × α))
    (hnd : (e.map Prod.fst).Nodup)
    (hdisj : ∀ p ∈ e, ∀ q ∈ d, q.1 ≠ p.1) : aupd d e = d ++ e := by
  induction e generalizing d with
  | nil => simp [aupd]
  | cons p e ih =>
    obtain ⟨k, v⟩ := p
    have hset : aset d k v = d ++ [(k, v)] :=
      aset_absent d k v (fun q hq => hdisj (k, v) (by simp) q hq)
    have hnd' : (e.map Prod.fst).Nodup := (List.nodup_cons.mp (by simpa using hnd)).2
    have hk : k ∉ e.map Prod.fst := (List.nodup_cons.mp (by simpa using hnd)).1
    have hdisj' : ∀ r ∈ e, ∀ q ∈ d ++ [(k, v)], q.1 ≠ r.1 := by
      intro r hr q hq
      rcases List.mem_append.mp hq with hqd | hqk
      · exact hdisj r (by simp [hr]) q hqd
      · have : q = (k, v) := by simpa using hqk
        subst this
        intro hkr
        have hkr' : k = r.1 := hkr
        exact hk (hkr' ▸ List.mem_map_of_mem Prod.fst hr)
    calc aupd d ((k, v) :: e)
        = aupd (aset d k v) e := by simp [aupd]
      _ = aupd (d ++ [(k, v)]) e := by rw [hset]
      _ = (d ++ [(k, v)]) ++ e := ih (d ++ [(k, v)]) hnd' hdisj'
      _ = d ++ (k, v) :: e := by simp

theorem getCount_map_bump (rc : List (String × ℕ)) (rid : String)
    (h : rc.any (fun p => p.1 == rid) = true) :
    getCount (rc.map (fun p => if p.1 == rid then (p.1, p.2 + 1) else p)) rid =
      getCount rc rid + 1 := by
  induction rc with
  | nil => simp at h
  | cons p rc ih =>
    by_cases hp : p.1 = rid
    · simp [getCount, aget?, hp]
    · have hp' : ¬((p.1 == rid) = true) := by simp [hp]
      have htail : rc.any (fun q => q.1 == rid) = true := by
        rcases List.any_eq_true.mp h with ⟨x, hx, hxp⟩
        rcases List.mem_cons.mp hx with rfl | hxrc
        · exact absurd hxp hp'
        · exact List.any_eq_true.mpr ⟨x, hxrc, hxp⟩
      have hpf : (p.1 == rid) = false := by simp [hp]
      have hrec := ih htail
      unfold getCount aget? at hrec ⊢
      rw [List.map_cons, if_neg hp']
      simp only [List.find?, hpf]
      exact hrec

theorem map_bump_id (rc : List (String × ℕ)) (rid : String)
    (hall : ∀ p ∈ rc, ¬((p.1 == rid) = true)) :
    rc.map (fun p => if p.1 == rid then (p.1, p.2 + 1) else p) = rc := by
  induction rc with
  | nil => rfl
  | cons p rc ih =>
    rw [List.map_cons, if_neg (hall p (by simp)), ih (fun q hq => hall q (by simp [hq]))]

theorem getCount_bump (rc : List (String × ℕ)) (rid : String) :
    getCount (bumpCount rc rid) rid = getCount rc rid + 1 := by
  unfold bumpCount
  by_cases h : rc.any (fun p => p.1 == rid) = true
  · simpa [h] using getCount_map_bump rc rid h
  · have hall : ∀ p ∈ rc, ¬((p.1 == rid) = true) :=
      fun p hp hpt => h (List.any_eq_true.mpr ⟨p, hp, hpt⟩)
    have hnone : rc.find? (fun p => p.1 == rid) = none :=
      List.find?_eq_none.mpr hall
    rw [if_neg h, List.map_append, map_bump_id rc rid hall]
    unfold getCount aget?
    rw [List.find?_append, hnone]
    simp [List.find?]

theorem getCount_bump_sends_retry (st : DispState) (rid : String) (command : Command)
    (response : Response) :
    getCount (recordAttemptD st rid command response).retry.retry_count rid =
      getCount st.retry.retry_count rid + 1 := by
  simp [recordAttemptD, RetryEngineState.record_attempt, getCount_bump]

/- ### Claim theorems -/

/-- C8: for every request id whose recorded attempt count is n,
`get_retry_delay` returns min(1.0 * 2^n, 10.0): exactly 1.0, 2.0, 4.0, 8.0,
10.0 for n = 0..4, and 10.0 for every n ≥ 5 (an absent id counts as 0, which
is exactly `getCount`'s default); deterministic, no jitter. -/
theorem get_retry_delay_values (st : RetryEngineState) (request_id : String) (n : ℕ)
    (h : getCount st.retry_count request_id = n) :
    st.get_retry_delay request_id = min (RETRY_DELAY_BASE * 2 ^ n) RETRY_DELAY_MAX ∧
    (n = 0 → st.get_retry_delay request_id = 1) ∧
    (n = 1 → st.get_retry_delay request_id = 2) ∧
    (n = 2 → st.get_retry_delay request_id = 4) ∧
    (n = 3 → st.get_retry_delay request_id = 8) ∧
    (n = 4 → st.get_retry_delay request_id = 10) ∧
    (5 ≤ n → st.get_retry_delay request_id = 10) := by
  subst h
  unfold RetryEngineState.get_retry_delay RETRY_DELAY_BASE RETRY_DELAY_MAX
  refine ⟨rfl, ?_, ?_, ?_, ?_, ?_, ?_⟩ <;> intro hn
  · rw [hn]; norm_num
  · rw [hn]; norm_num
  · rw [hn]; norm_num
  · rw [hn]; norm_num
  · rw [hn]; norm_num
  · have h32 : (2 : ℚ) ^ 5 ≤ 2 ^ getCount st.retry_count request_id :=
      pow_le_pow_right₀ (by norm_num) hn
    rw [one_mul, min_eq_right (by norm_num at h32 ⊢; linarith)]

/-- Witness for C8 at a concrete state with recorded count 5. -/
theorem get_retry_delay_values_witness :
    (⟨[("req_w", 5)], []⟩ : RetryEngineState).get_retry_delay "req_w" =
      min (RETRY_DELAY_BASE * 2 ^ 5) RETRY_DELAY_MAX ∧
    (5 = 0 → (⟨[("req_w", 5)], []⟩ : RetryEngineState).get_retry_delay "req_w" = 1) ∧
    (5 = 1 → (⟨[("req_w", 5)], []⟩ : RetryEngineState).get_retry_delay "req_w" = 2) ∧
    (5 = 2 → (⟨[("req_w", 5)], []⟩ : RetryEngineState).get_retry_delay "req_w" = 4) ∧
    (5 = 3 → (⟨[("req_w", 5)], []⟩ : RetryEngineState).get_retry_delay "req_w" = 8) ∧
    (5 = 4 → (⟨[("req_w", 5)], []⟩ : RetryEngineState).get_retry_delay "req_w" = 10) ∧
    (5 ≤ 5 → (⟨[("req_w", 5)], []⟩ : RetryEngineState).get_retry_delay "req_w" = 10) :=
  get_retry_delay_values ⟨[("req_w", 5)], []⟩ "req_w" 5 (by rfl)

/-- C9: `analyze {fps: 20}` is critical with exactly one issue on fps;
`analyze {fps: 40}` is ok with exactly one warning on fps and no issues;
`analyze {fps: 60, draw_calls: 6000}` is critical with exactly one issue on
draw_calls and no fps issue or warning; and each absent metric defaults to
fps = 60.0, draw_calls = 0, node_count = 0. -/
theorem analyze_threshold_cases :
    (analyze ⟨some 20, none, none, none⟩).status = "critical" ∧
    (analyze ⟨some 20, none, none, none⟩).issues.map PerfEntry.metric = ["fps"] ∧
    (analyze ⟨some 40, none, none, none⟩).status = "ok" ∧
    (analyze ⟨some 40, none, none, none⟩).warnings.map PerfEntry.metric = ["fps"] ∧
    (analyze ⟨some 40, none, none, none⟩).issues.map PerfEntry.metric = [] ∧
    (analyze ⟨some 60, some 6000, none, none⟩).status = "critical" ∧
    (analyze ⟨some 60, some 6000, none, none⟩).issues.map PerfEntry.metric = ["draw_calls"] ∧
    (analyze ⟨some 60, some 6000, none, none⟩).warnings.map PerfEntry.metric = [] ∧
    (∀ dc nc mm, analyze ⟨none, dc, nc, mm⟩ = analyze ⟨some 60, dc, nc, mm⟩) ∧
    (∀ f nc mm, analyze ⟨f, none, nc, mm⟩ = analyze ⟨f, some 0, nc, mm⟩) ∧
    (∀ f dc mm, analyze ⟨f, dc, none, mm⟩ = analyze ⟨f, dc, some 0, mm⟩) :=
  ⟨by decide, by decide, by decide, by decide, by decide, by decide, by decide, by decide,
   fun _ _ _ => rfl, fun _ _ _ => rfl, fun _ _ _ => rfl⟩

/-- C10: `_log_command` keeps the history at no more than 1000 entries;
appending to a full history of 1000 entries evicts exactly the oldest entry
and preserves the order of the rest, and appending to a non-full history is
a plain append. -/
theorem command_history_bounded (st : DispState) (command : Command)
    (response : Response) (attempts : ℕ) (h : st.command_history.length ≤ 1000) :
    (logCommand st command response attempts).command_history.length ≤ 1000 ∧
    (st.command_history.length = 1000 →
      (logCommand st command response attempts).command_history =
        st.command_history.drop 1 ++
          [⟨command.to_dict, response.to_dict, attempts, st.clock⟩]) ∧
    (st.command_history.length < 1000 →
      (logCommand st command response attempts).command_history =
        st.command_history ++
          [⟨command.to_dict, response.to_dict, attempts, st.clock⟩]) := by
  have hist_eq : (logCommand st command response attempts).command_history =
      if st.command_history.length + 1 > 1000 then
        (st.command_history ++
          [(⟨command.to_dict, response.to_dict, attempts, st.clock⟩ : HistoryEntry)]).drop
            (st.command_history.length + 1 - 1000)
      else
        st.command_history ++
          [(⟨command.to_dict, response.to_dict, attempts, st.clock⟩ : HistoryEntry)] := by
    show (if (st.command_history ++
          [(⟨command.to_dict, response.to_dict, attempts, st.clock⟩ : HistoryEntry)]).length
            > 1000 then _ else _) = _
    simp only [List.length_append, List.length_cons, List.length_nil]
  refine ⟨?_, ?_, ?_⟩
  · rw [hist_eq]
    by_cases hfull : st.command_history.length + 1 > 1000
    · rw [if_pos hfull]
      simp only [List.length_drop, List.length_append, List.length_cons, List.length_nil]
      omega
    · rw [if_neg hfull]
      simp only [List.length_append, List.length_cons, List.length_nil]
      omega
  · intro h1000
    rw [hist_eq, if_pos (by omega)]
    rw [show st.command_history.length + 1 - 1000 = 1 from by omega]
    rw [List.drop_append_of_le_length (by omega)]
  · intro hlt
    rw [hist_eq, if_neg (by omega)]

/-- Witness for C10 at a full (1000-entry) concrete history. -/
theorem command_history_bounded_witness :
    (logCommand stFull cmdRun okResp 1).command_history.length ≤ 1000 ∧
    (stFull.command_history.length = 1000 →
      (logCommand stFull cmdRun okResp 1).command_history =
        stFull.command_history.drop 1 ++
          [⟨cmdRun.to_dict, okResp.to_dict, 1, stFull.clock⟩]) ∧
    (stFull.command_history.length < 1000 →
      (logCommand stFull cmdRun okResp 1).command_history =
        stFull.command_history ++
          [⟨cmdRun.to_dict, okResp.to_dict, 1, stFull.clock⟩]) :=
  command_history_bounded stFull cmdRun okResp 1
    (by show (List.replicate 1000 entryFix).length ≤ 1000; rw [List.length_replicate])

/-- C4 counterexample: a wire mapping whose `status` holds the string
`"pending"` — neither `"success"` nor `"error"` — decodes to
status = "pending", not to "unknown", refuting the claim as stated. -/
theorem decode_foreign_status_not_unknown :
    (Response.from_dict [("status", Value.vStr "pending")]).status = "pending" ∧
    (Response.from_dict [("status", Value.vStr "pending")]).status ≠ "unknown" :=
  ⟨rfl, by decide⟩

/-- C4 (amended): `Response.from_dict` is total (it never raises); a missing
`status` key decodes to status = "unknown", and a present string status
value is kept verbatim — values outside success/error are preserved, not
mapped to "unknown". -/
theorem decode_status_missing_unknown_present_verbatim (d : List (String × Value)) :
    (aget? d "status" = none → (Response.from_dict d).status = "unknown") ∧
    (∀ s, aget? d "status" = some (Value.vStr s) → (Response.from_dict d).status = s) := by
  constructor
  · intro h
    simp [Response.from_dict, getStr, h]
  · intro s h
    simp [Response.from_dict, getStr, h]

/-- Witness for C4's amended theorem: a mapping without a status key decodes
to "unknown". -/
theorem decode_status_missing_unknown_witness :
    (Response.from_dict [("action", Value.vStr "run_scene")]).status = "unknown" :=
  (decode_status_missing_unknown_present_verbatim [("action", Value.vStr "run_scene")]).1 rfl

/-- C3 (code bug): a command that succeeds on the first attempt reaches a
terminal success response, yet its request id is still a key of
`pending_commands` when `execute_command` returns — the removal statement
in the source (line 470) sits after the `while True` loop, which has no
`break`, and is therefore unreachable. -/
theorem pending_commands_kept_after_terminal :
    (executeCommand (fun _ => some okResp) "req_b" none 5 cmdRun initState).map
      (fun p => (p.1.status, p.2.pending_commands.map Prod.fst)) =
      some ("success", ["req_b"]) := by
  rfl

theorem loop_comm_failure_diverges (command : Command) (rid : String) :
    ∀ fuel attempts (st : DispState), getCount st.retry.retry_count rid < MAX_RETRIES →
      executeCommandLoop (fun _ => none) command rid fuel attempts st = none := by
  intro fuel
  induction fuel with
  | zero => intro attempts st _; rfl
  | succ n ih =>
    intro attempts st h
    have hcan : ({ st with sends := st.sends + 1 } : DispState).retry.can_continue rid = true := by
      simp [RetryEngineState.can_continue, RetryEngineState.should_retry, h]
    simp only [executeCommandLoop, hcan, if_pos]
    exact ih (attempts + 1) _ h

/-- C1 (code bug): for a fresh command whose every send attempt is a
communication failure, `execute_command` never terminates, whatever fuel
the loop is given — because communication failures are never recorded in
the retry engine, `can_continue` stays true forever, so the claimed
at-most-5-retries termination with a synthesized communication-error
response does not happen. -/
theorem execute_command_comm_failure_never_terminates :
    ∀ fuel, executeCommand (fun _ => none) "req_a" none fuel cmdRun initState = none := by
  intro fuel
  exact loop_comm_failure_diverges _ _ fuel 0 _ (by decide)

/-- C5: decoding the encoding of a Command is the identity whenever the
parameter keys (which, coming from a Python dict, are distinct) do not
collide with the reserved keys action / auto_run / request_id. -/
theorem command_roundtrip (c : Command)
    (hnd : (c.parameters.map Prod.fst).Nodup)
    (hres : ∀ p ∈ c.parameters,
      p.1 ≠ "action" ∧ p.1 ≠ "auto_run" ∧ p.1 ≠ "request_id") :
    Command.from_dict c.to_dict = c := by
  obtain ⟨a, ps, b, rid⟩ := c
  simp only [Command.parameters] at hnd hres
  have hupd : aupd [("action", Value.vStr a), ("auto_run", Value.vBool b)] ps =
      [("action", Value.vStr a), ("auto_run", Value.vBool b)] ++ ps := by
    apply aupd_fresh ps _ hnd
    intro p hp q hq
    rcases hres p hp with ⟨h1, h2, _⟩
    rcases List.mem_cons.mp hq with rfl | hq2
    · exact fun he => h1 he.symm
    · have : q = ("auto_run", Value.vBool b) := by simpa using hq2
      subst this
      exact fun he => h2 he.symm
  have henc : Command.to_dict ⟨a, ps, b, rid⟩ =
      ("action", Value.vStr a) :: ("auto_run", Value.vBool b) ::
        (ps ++ (if rid = "" then [] else [("request_id", Value.vStr rid)])) := by
    show (if rid = "" then aupd [("action", Value.vStr a), ("auto_run", Value.vBool b)] ps
          else aset (aupd [("action", Value.vStr a), ("auto_run", Value.vBool b)] ps)
            "request_id" (Value.vStr rid)) = _
    by_cases hr : rid = ""
    · rw [if_pos hr, if_pos hr, hupd]
      simp
    · rw [if_neg hr, if_neg hr, hupd]
      rw [aset_absent]
      · simp
      · intro p hp
        rcases List.mem_append.mp hp with hpb | hpp
        · rcases List.mem_cons.mp hpb with rfl | hpb2
          · simp
          · have : p = ("auto_run", Value.vBool b) := by simpa using hpb2
            subst this
            simp
        · exact (hres p hpp).2.2
  rw [henc]
  have hps_none : ps.find? (fun p => p.1 == "request_id") = none :=
    List.find?_eq_none.mpr (fun p hp => by simp [(hres p hp).2.2])
  have hps_self :
      ps.filter (fun p => !(["action", "auto_run", "request_id"].contains p.1)) = ps :=
    List.filter_eq_self.mpr (fun p hp => by
      rcases hres p hp with ⟨h1, h2, h3⟩
      simp [List.contains_eq_any_beq, h1, h2, h3])
  simp only [Command.from_dict, Command.mk.injEq]
  refine ⟨?_, ?_, ?_, ?_⟩
  · simp [getStr, aget?, List.find?]
  · simp only [List.filter_cons, List.filter_append]
    rw [hps_self]
    by_cases hr : rid = ""
    · rw [if_pos hr]
      simp
    · rw [if_neg hr]
      simp
  · simp [getBool, aget?, List.find?]
  · by_cases hr : rid = ""
    · rw [if_pos hr]
      simp [getStr, aget?, List.find?, List.find?_append, hps_none, hr]
    · rw [if_neg hr]
      simp [getStr, aget?, List.find?, List.find?_append, hps_none]

/-- Witness for C5 at a concrete command with one non-reserved parameter. -/
theorem command_roundtrip_witness :
    Command.from_dict
        (Command.to_dict ⟨"add_node", [("name", Value.vStr "Player")], true, "r1"⟩) =
      ⟨"add_node", [("name", Value.vStr "Player")], true, "r1"⟩ :=
  command_roundtrip ⟨"add_node", [("name", Value.vStr "Player")], true, "r1"⟩
    (by simp) (by simp)

/-- C6: `execute_batch` executes the commands one at a time in order through
the single-command executor, threads the state, appends each terminal
response, and stops right after the first error response: its output is the
sequential run of exactly the first k commands (so the rest are never
attempted), every response before the last is a non-error, and when the
batch was cut short the last response is an error. -/
theorem execute_batch_stops_at_first_error {σ : Type}
    (execOne : Command → σ → Response × σ) (cmds : List Command) (st : σ) :
    ∃ k, k ≤ cmds.length ∧
      executeBatch execOne cmds st = runSeq execOne (cmds.take k) st ∧
      (executeBatch execOne cmds st).1.length = k ∧
      (∀ r ∈ (executeBatch execOne cmds st).1.dropLast, r.is_error = false) ∧
      (k < cmds.length →
        ∃ r, (executeBatch execOne cmds st).1.getLast? = some r ∧ r.is_error = true) := by
  induction cmds generalizing st with
  | nil =>
    exact ⟨0, Nat.le_refl 0, rfl, rfl, by simp [executeBatch], fun h => absurd h (by simp)⟩
  | cons c cs ih =>
    by_cases hr : (execOne c st).1.is_error = true
    · refine ⟨1, by simp, ?_, ?_, ?_, ?_⟩
      · simp [executeBatch, runSeq, hr]
      · simp [executeBatch, hr]
      · simp [executeBatch, hr]
      · intro _
        exact ⟨(execOne c st).1, by simp [executeBatch, hr], hr⟩
    · obtain ⟨k, hk, hbatch, hlen, hdrop, hlast⟩ := ih ((execOne c st).2)
      refine ⟨k + 1, by simpa using Nat.succ_le_succ hk, ?_, ?_, ?_, ?_⟩
      · simp [executeBatch, runSeq, hr, hbatch]
      · simp [executeBatch, hr, hlen]
      · intro x hx
        rcases hrs : (executeBatch execOne cs ((execOne c st).2)).1 with _ | ⟨r2, rs2⟩
        · simp [executeBatch, hr, hrs] at hx
        · have hx2 : x ∈ (execOne c st).1 :: (r2 :: rs2).dropLast := by
            have hcons : (executeBatch execOne (c :: cs) st).1 =
                (execOne c st).1 :: r2 :: rs2 := by
              simp [executeBatch, hr, hrs]
            rw [hcons] at hx
            simpa [List.dropLast] using hx
          rcases List.mem_cons.mp hx2 with rfl | hx3
          · simpa using hr
          · exact hdrop x (by rw [hrs]; exact hx3)
      · intro hklt
        obtain ⟨r, hget, herr⟩ := hlast (by simp only [List.length_cons] at hklt; omega)
        refine ⟨r, ?_, herr⟩
        have hcons : (executeBatch execOne (c :: cs) st).1 =
            [(execOne c st).1] ++ (executeBatch execOne cs ((execOne c st).2)).1 := by
          simp [executeBatch, hr]
        rw [hcons, List.getLast?_append, hget]
        rfl

/-- Witness for C6: the spec's three-command example — ok, then a
non-retryable error, then a command that is never attempted — yields the
two responses of the first two commands. -/
theorem execute_batch_stops_at_first_error_witness :
    ∃ k, k ≤ ([cmdRun, cmdRun, cmdRun]).length ∧
      executeBatch batchExecFix [cmdRun, cmdRun, cmdRun] 0 =
        runSeq batchExecFix (([cmdRun, cmdRun, cmdRun]).take k) 0 ∧
      (executeBatch batchExecFix [cmdRun, cmdRun, cmdRun] 0).1.length = k ∧
      (∀ r ∈ (executeBatch batchExecFix [cmdRun, cmdRun, cmdRun] 0).1.dropLast,
        r.is_error = false) ∧
      (k < ([cmdRun, cmdRun, cmdRun]).length →
        ∃ r, (executeBatch batchExecFix [cmdRun, cmdRun, cmdRun] 0).1.getLast? = some r ∧
          r.is_error = true) :=
  execute_batch_stops_at_first_error batchExecFix [cmdRun, cmdRun, cmdRun] 0

/-- C7: a command whose first reply is an error with an error_type outside
compile/runtime is returned unchanged right after the first send attempt:
exactly one send, no backoff sleep, and the outcome is appended to
`command_history` (stated for a non-full history; C10 covers the ring
buffer). -/
theorem nonretryable_error_returned_immediately (oracle : ℕ → Option Response)
    (r : Response) (command : Command) (freshId : String) (st : DispState) (fuel : ℕ)
    (hor : oracle 0 = some r) (hs : r.status = "error")
    (h1 : r.error_type ≠ "compile") (h2 : r.error_type ≠ "runtime")
    (hlen : st.command_history.length < 1000) :
    ∃ st', executeCommand oracle freshId none (fuel + 1) command st = some (r, st') ∧
      st'.sends = st.sends + 1 ∧
      st'.sleeps = st.sleeps ∧
      st'.command_history = st.command_history ++
        [⟨(ownedCommand command freshId).to_dict, r.to_dict, 1, st.clock + 1⟩] := by
  have hsucc : r.is_success = false := by
    simp [Response.is_success, hs]
  have herr : r.is_error = true := by
    simp [Response.is_error, hs]
  have hcontains : (["compile", "runtime"].contains r.error_type) = false := by
    simp [List.contains_eq_any_beq, List.any_cons, List.any_nil, h1, h2]
  unfold executeCommand
  simp only [executeCommandLoop, hor, hsucc, herr, hcontains, Bool.false_and,
    Bool.false_eq_true, if_false, if_true, Nat.zero_add]
  refine ⟨_, rfl, ?_, ?_, ?_⟩
  · simp [logCommand, recordAttemptD]
  · simp [logCommand, recordAttemptD]
  · simp only [logCommand, recordAttemptD]
    rw [if_neg (by simp only [List.length_append, List.length_cons, List.length_nil]; omega)]

/-- Witness for C7: a concrete invalid_syntax reply against the fresh
dispatcher. -/
theorem nonretryable_error_returned_immediately_witness :
    ∃ st', executeCommand (fun _ => some invalidErr) "req_d" none (0 + 1) cmdRun initState =
        some (invalidErr, st') ∧
      st'.sends = initState.sends + 1 ∧
      st'.sleeps = initState.sleeps ∧
      st'.command_history = initState.command_history ++
        [⟨(ownedCommand cmdRun "req_d").to_dict, invalidErr.to_dict, 1,
          initState.clock + 1⟩] :=
  nonretryable_error_returned_immediately (fun _ => some invalidErr) invalidErr cmdRun
    "req_d" initState 0 rfl rfl (by decide) (by decide) (by decide)

theorem loop_retryable_error_exhausts (oracle : ℕ → Option Response) (resp : ℕ → Response)
    (command : Command) (rid : String)
    (horacle : ∀ n, oracle n = some (resp n))
    (hs : ∀ n, (resp n).status = "error")
    (ht : ∀ n, (resp n).error_type = "compile" ∨ (resp n).error_type = "runtime") :
    ∀ j, 1 ≤ j → j ≤ 5 → ∀ f a (st : DispState),
      getCount st.retry.retry_count rid = 5 - j →
      ∃ st', executeCommandLoop oracle command rid (f + j) a st =
          some (resp (a + j - 1), st') ∧
        st'.sends = st.sends + j ∧ st'.sleeps.length = st.sleeps.length + (j - 1) := by
  have hsucc : ∀ n, (resp n).is_success = false := fun n => by
    simp [Response.is_success, hs n]
  have herr : ∀ n, (resp n).is_error = true := fun n => by
    simp [Response.is_error, hs n]
  have hcontains : ∀ n, (["compile", "runtime"].contains (resp n).error_type) = true :=
    fun n => by rcases ht n with h | h <;> simp [List.contains_eq_any_beq, h]
  intro j
  induction j with
  | zero => intro h1; exact absurd h1 (by omega)
  | succ j ih =>
    intro _ hle f a st hcount
    by_cases hj : j = 0
    · subst hj
      have hbump :
          getCount (recordAttemptD { st with sends := st.sends + 1 } rid command
            (resp a)).retry.retry_count rid = 5 := by
        rw [getCount_bump_sends_retry]
        have : getCount ({ st with sends := st.sends + 1 } : DispState).retry.retry_count rid =
            getCount st.retry.retry_count rid := rfl
        omega
      have hcc :
          (recordAttemptD { st with sends := st.sends + 1 } rid command
            (resp a)).retry.can_continue rid = false := by
        simp [RetryEngineState.can_continue, RetryEngineState.should_retry, hbump, MAX_RETRIES]
      rw [show a + 1 - 1 = a from by omega]
      simp only [executeCommandLoop, horacle a, hsucc a, herr a, hcontains a, hcc,
        Bool.and_false, Bool.false_eq_true, if_false, if_true, Bool.true_and]
      refine ⟨_, rfl, ?_, ?_⟩
      · simp [logCommand, recordAttemptD]
      · simp [logCommand, recordAttemptD]
    · have hj1 : 1 ≤ j := Nat.pos_of_ne_zero hj
      have hbump :
          getCount (recordAttemptD { st with sends := st.sends + 1 } rid command
            (resp a)).retry.retry_count rid = 5 - j := by
        rw [getCount_bump_sends_retry]
        have : getCount ({ st with sends := st.sends + 1 } : DispState).retry.retry_count rid =
            getCount st.retry.retry_count rid := rfl
        omega
      have hcc :
          (recordAttemptD { st with sends := st.sends + 1 } rid command
            (resp a)).retry.can_continue rid = true := by
        simp only [RetryEngineState.can_continue, RetryEngineState.should_retry, hbump,
          MAX_RETRIES]
        simp only [decide_eq_true_eq]
        omega
      have hstep : executeCommandLoop oracle command rid (f + (j + 1)) a st =
          executeCommandLoop oracle command rid (f + j) (a + 1)
            { recordAttemptD { st with sends := st.sends + 1 } rid command (resp a) with
                sleeps :=
                  (recordAttemptD { st with sends := st.sends + 1 } rid command
                      (resp a)).sleeps ++
                    [(recordAttemptD { st with sends := st.sends + 1 } rid command
                        (resp a)).retry.get_retry_delay rid] } := by
        rw [show f + (j + 1) = (f + j) + 1 from by omega]
        simp only [executeCommandLoop, horacle a, hsucc a, herr a, hcontains a, hcc,
          Bool.true_and, Bool.false_eq_true, if_false, if_true]
      obtain ⟨st', heq, hsends, hsleeps⟩ := ih hj1 (by omega) f (a + 1)
        { recordAttemptD { st with sends := st.sends + 1 } rid command (resp a) with
            sleeps :=
              (recordAttemptD { st with sends := st.sends + 1 } rid command (resp a)).sleeps ++
                [(recordAttemptD { st with sends := st.sends + 1 } rid command
                    (resp a)).retry.get_retry_delay rid] }
        (by simpa [recordAttemptD, RetryEngineState.record_attempt] using hbump)
      rw [show a + (j + 1) - 1 = a + 1 + j - 1 from by omega]
      refine ⟨st', hstep ▸ heq, ?_, ?_⟩
      · rw [hsends]
        simp only [recordAttemptD]
        omega
      · rw [hsleeps]
        simp only [recordAttemptD, List.length_append, List.length_cons, List.length_nil]
        omega

/-- C2 counterexample: against a remote that always replies with a compile
error, `execute_command` performs 5 total send attempts, not the 6 the claim
states. -/
theorem compile_error_six_attempts_refuted :
    (executeCommand (fun _ => some compileErr) "req_e" none 20 cmdRun initState).map
      (fun p => p.2.sends) = some 5 ∧
    (executeCommand (fun _ => some compileErr) "req_e" none 20 cmdRun initState).map
      (fun p => p.2.sends) ≠ some 6 := by
  have h : (executeCommand (fun _ => some compileErr) "req_e" none 20 cmdRun initState).map
      (fun p => p.2.sends) = some 5 := by rfl
  refine ⟨h, ?_⟩
  rw [h]
  simp

/-- C2 (amended): a command whose every reply — the replies may all differ —
is an error with error_type = "compile", started with a fresh retry count
for its id, is retried exactly 4 times — 5 total send attempts, with 4
backoff sleeps — and the reply to the 5th (last) send attempt is returned
unchanged. -/
theorem compile_error_five_total_attempts (oracle : ℕ → Option Response)
    (resp : ℕ → Response) (command : Command) (freshId : String) (st : DispState) (f : ℕ)
    (horacle : ∀ n, oracle n = some (resp n))
    (hs : ∀ n, (resp n).status = "error")
    (ht : ∀ n, (resp n).error_type = "compile")
    (hfresh : getCount st.retry.retry_count (ownedCommand command freshId).request_id = 0) :
    ∃ st', executeCommand oracle freshId none (f + 5) command st =
        some (resp 4, st') ∧
      st'.sends = st.sends + 5 ∧ st'.sleeps.length = st.sleeps.length + 4 := by
  unfold executeCommand
  obtain ⟨st', heq, hsends, hsleeps⟩ :=
    loop_retryable_error_exhausts oracle resp (ownedCommand command freshId)
      (ownedCommand command freshId).request_id horacle hs (fun n => Or.inl (ht n))
      5 (by omega) (by omega) f 0
      ({ st with pending_commands := aset st.pending_commands (ownedCommand command freshId).request_id (ownedCommand command freshId) })
      (by simpa using hfresh)
  exact ⟨st', heq, by simpa using hsends, by simpa using hsleeps⟩

/-- Witness for C2's amended theorem at a concrete remote whose five
compile-error replies are pairwise distinct: the 5th reply is the one
returned. -/
theorem compile_error_five_total_attempts_witness :
    ∃ st', executeCommand (fun n => some (compileErrN n)) "req_c" none (15 + 5) cmdRun
        initState = some (compileErrN 4, st') ∧
      st'.sends = initState.sends + 5 ∧
      st'.sleeps.length = initState.sleeps.length + 4 :=
  compile_error_five_total_attempts (fun n => some (compileErrN n)) compileErrN cmdRun
    "req_c" initState 15 (fun _ => rfl) (fun _ => rfl) (fun _ => rfl) (by rfl)

end GodotAI
